import Mathlib

/-!
MemeCasso: the mention-to-reply pipeline

A shallow embedding of `src/Bot/index.js` (the scheduled-job variant) and
`src/Bot-API/index.js` (the server variant).  Network collaborators are
modelled by their outcomes, which are inputs of the embedded functions, and
every call that the code performs is recorded in a list of `Call`s.
-/

namespace MemeCasso

/-! ## JavaScript strings

A JavaScript string is modelled by a Lean `String` (a sequence of code
points).  `length` counts UTF-16 code units, as in JavaScript. -/

/-- Number of UTF-16 code units used by one code point. -/
def utf16Size (c : Char) : Nat :=
  if c.val.toNat < 0x10000 then 1 else 2

/-- JavaScript `s.length`: the number of UTF-16 code units of `s`. -/
def jsLength (s : String) : Nat :=
  (s.data.map utf16Size).sum

/-- The UTF-8 encoding of a string, byte by byte. -/
def utf8 (s : String) : List UInt8 :=
  s.data.flatMap String.utf8EncodeChar

/-- The bytes `[start, stop)` of a byte sequence. -/
def byteSlice (bytes : List UInt8) (start stop : Nat) : List UInt8 :=
  (bytes.drop start).take (stop - start)

/-- JavaScript `xs.join(sep)`: the loop of `Array.prototype.join`, which puts
    the separator before every element but the first. -/
def join (sep : String) (xs : List String) : String :=
  xs.enum.foldl (fun r p => (if p.1 = 0 then r else r ++ sep) ++ p.2) ""

/-- Replace the first occurrence of `pat` by `rep` in a list of characters. -/
def replaceFirst (pat rep : List Char) : List Char → List Char
  | [] => if pat = [] then rep else []
  | c :: cs =>
    if pat.isPrefixOf (c :: cs) then rep ++ (c :: cs).drop pat.length
    else c :: replaceFirst pat rep cs

/-- JavaScript `s.replace(pat, rep)` with a string pattern: only the first
    occurrence is replaced. -/
def jsReplace (s pat rep : String) : String :=
  ⟨replaceFirst pat.data rep.data s.data⟩

/-- JavaScript `s.includes(pat)`. -/
def jsIncludes (s pat : String) : Bool :=
  s.data.tails.any (fun t => pat.data.isPrefixOf t)

/-! ## Facets -/

/-- The `index` object of a facet. -/
structure ByteRange where
  byteStart : Nat
  byteEnd : Nat
  deriving DecidableEq

/-- One entry of the `features` array of a facet. -/
structure Feature where
  type : String
  tag : String
  deriving DecidableEq

/-- A rich-text facet. -/
structure Facet where
  index : ByteRange
  features : List Feature
  deriving DecidableEq

/-- The result object `{ text, facets }` of `createHashtagFacets`. -/
structure RichText where
  text : String
  facets : List Facet
  deriving DecidableEq

/-- The object literal pushed for one hashtag, at a given `position`. -/
def hashtagFacet (position : Nat) (tag : String) : Facet :=
  { index := { byteStart := position, byteEnd := position + jsLength tag }
    features := [{ type := "app.bsky.richtext.facet#tag", tag := jsReplace tag "#" "" }] }

namespace Bot

/-- `createHashtagFacets` of `src/Bot/index.js`: a `forEach` that carries the
    array `facets` and the running `position`. -/
def createHashtagFacets (hashtags : List String) : RichText :=
  let text := join " " hashtags
  let st := hashtags.foldl
    (fun (st : List Facet × Nat) tag =>
      (st.1 ++ [hashtagFacet st.2 tag], st.2 + (jsLength tag + 1)))
    ([], 0)
  { text := text, facets := st.1 }

end Bot

namespace BotAPI

/-- `createHashtagFacets` of `src/Bot-API/index.js`: a `reduce` over the
    hashtags with their index, whose accumulator `acc` is the array of facets
    built so far; `acc.length` is the length of that array. -/
def createHashtagFacets (hashtags : List String) : RichText :=
  let text := join " " hashtags
  let facets := hashtags.enum.foldl
    (fun (acc : List Facet) p =>
      let position := if p.1 = 0 then 0 else acc.length + 1
      acc ++ [hashtagFacet position p.2])
    []
  { text := text, facets := facets }

end BotAPI

/-- A hashtag as the facet builder expects it: it starts with `#`, and all its
    characters are ASCII and none is whitespace. -/
def IsAsciiHashtag (h : String) : Prop :=
  h.data.head? = some '#' ∧ ∀ c ∈ h.data, c.val.toNat < 128 ∧ c.isWhitespace = false

instance (h : String) : Decidable (IsAsciiHashtag h) := by
  unfold IsAsciiHashtag
  exact inferInstance

/-- The facets that a left-to-right pass starting at byte `position` produces. -/
def facetsFrom (position : Nat) : List String → List Facet
  | [] => []
  | tag :: rest => hashtagFacet position tag :: facetsFrom (position + (jsLength tag + 1)) rest


/-! ## Data exchanged with the collaborators -/

/-- A thrown JavaScript error; the code only looks at `error.message`, which
    may be missing. -/
structure JSError where
  message : Option String
  deriving DecidableEq

/-- A notification as returned by `listNotifications`; `parentUri` is
    `record.reply?.parent?.uri`. -/
structure Notification where
  reason : String
  isRead : Bool
  uri : String
  cid : String
  parentUri : Option String
  deriving DecidableEq

/-- The object that `getRootPost` builds from `thread.post`. -/
structure RootPost where
  text : String
  uri : String
  cid : String
  embed : Option String
  deriving DecidableEq

/-- A byte buffer, of which the code only reads `length`. -/
structure Buffer where
  length : Nat
  deriving DecidableEq

/-- The blob handle `uploadResponse.data.blob`. -/
structure Blob where
  ref : String
  deriving DecidableEq

/-- One entry of `images` in the embed. -/
structure Image where
  alt : String
  image : Blob
  deriving DecidableEq

/-- The embed object returned by `processAndUploadImage`. -/
structure ImageEmbed where
  type : String
  images : List Image
  deriving DecidableEq

/-- A `{ uri, cid }` reference. -/
structure StrongRef where
  uri : String
  cid : String
  deriving DecidableEq

/-- The `reply` field of a post. -/
structure ReplyRef where
  root : StrongRef
  parent : StrongRef
  deriving DecidableEq

/-- The argument of `agent.post`. -/
structure Post where
  text : String
  facets : List Facet
  reply : ReplyRef
  embed : ImageEmbed
  deriving DecidableEq

/-- The body `response.data` of the content-generation service; `hashtags`
    may be missing, and spreading a missing value throws. -/
structure MemeResponse where
  hashtags : Option (List String)
  url : String
  deriving DecidableEq

/-- A call to a collaborator, with its arguments. -/
inductive Call where
  | login
  | listNotifications (limit : Nat)
  | getPostThread (uri : Option String) (depth : Nat)
  | memeApi (tweet : String)
  | download (imageUrl : String)
  | uploadBlob (image : Buffer) (encoding : String)
  | post (payload : Post)
  | updateSeen
  deriving DecidableEq

/-- What each collaborator call made for one mention answers: `.ok` with the
    value, or `.error` with the error it throws.  `getPostThread` answers with
    `thread?.post` already turned into a `RootPost`, if there is one. -/
structure Outcomes where
  getPostThread : Except JSError (Option RootPost)
  memeApi : Except JSError MemeResponse
  download : Except JSError Buffer
  sharp : Except JSError Buffer
  uploadBlob : Except JSError Blob
  post : Except JSError Unit
  updateSeen : Except JSError Unit

/-- How an `async` function ends: it returns, it throws, or it ends the
    process with `process.exit(code)`. -/
inductive Completion where
  | returned
  | threw (error : JSError)
  | exited (code : Nat)
  deriving DecidableEq

def MAX_IMAGE_SIZE : Nat := 10000000

def LOGIN_TIMEOUT : Int := 3600000

/-! ## Session -/

/-- The guard `lastLoginTime && currentTime - lastLoginTime < LOGIN_TIMEOUT`:
    `null` and `0` are falsy. -/
def sessionFresh (lastLoginTime : Option Int) (currentTime : Int) : Bool :=
  match lastLoginTime with
  | none => false
  | some t => t != 0 && decide (currentTime - t < LOGIN_TIMEOUT)

/-- The result of one run of `loginToBluesky`. -/
structure LoginRun where
  completion : Completion
  lastLoginTime : Option Int
  calls : List Call
  deriving DecidableEq

namespace BotAPI

/-- `loginToBluesky` of `src/Bot-API/index.js`; `currentTime` is `Date.now()`
    and `login` is what `agent.login` answers.  A failed login is rethrown. -/
def loginToBluesky (lastLoginTime : Option Int) (currentTime : Int)
    (login : Except JSError Unit) : LoginRun :=
  if sessionFresh lastLoginTime currentTime then
    { completion := .returned, lastLoginTime := lastLoginTime, calls := [] }
  else
    match login with
    | .ok _ => { completion := .returned, lastLoginTime := some currentTime, calls := [.login] }
    | .error e => { completion := .threw e, lastLoginTime := lastLoginTime, calls := [.login] }

end BotAPI

namespace Bot

/-- `loginToBluesky` of `src/Bot/index.js`: a failed login ends the process
    with `process.exit(1)`. -/
def loginToBluesky (lastLoginTime : Option Int) (currentTime : Int)
    (login : Except JSError Unit) : LoginRun :=
  if sessionFresh lastLoginTime currentTime then
    { completion := .returned, lastLoginTime := lastLoginTime, calls := [] }
  else
    match login with
    | .ok _ => { completion := .returned, lastLoginTime := some currentTime, calls := [.login] }
    | .error _ => { completion := .exited 1, lastLoginTime := lastLoginTime, calls := [.login] }

end Bot

/-! ## Per-mention pipeline -/

/-- `getRootPost`, the same in both files: every error is caught and gives
    `null`. -/
def getRootPost (uri : Option String) (o : Outcomes) : Option RootPost × List Call :=
  match o.getPostThread with
  | .ok (some post) => (some post, [.getPostThread uri 0])
  | .ok none => (none, [.getPostThread uri 0])
  | .error _ => (none, [.getPostThread uri 0])

/-- `processAndUploadImage`, the same in both files: every error, the size
    check included, is caught and gives `null`. -/
def processAndUploadImage (imageUrl : String) (o : Outcomes) :
    Option ImageEmbed × List Call :=
  match o.download with
  | .error _ => (none, [.download imageUrl])
  | .ok _ =>
    match o.sharp with
    | .error _ => (none, [.download imageUrl])
    | .ok processedImage =>
      if processedImage.length > MAX_IMAGE_SIZE then
        (none, [.download imageUrl])
      else
        match o.uploadBlob with
        | .error _ =>
          (none, [.download imageUrl, .uploadBlob processedImage "image/jpeg"])
        | .ok blob =>
          (some { type := "app.bsky.embed.images"
                  images := [{ alt := "Default response image", image := blob }] },
           [.download imageUrl, .uploadBlob processedImage "image/jpeg"])

/-- JavaScript `a || b` on a possibly missing string: the empty string is
    falsy too. -/
def jsOr (a : Option String) (b : String) : String :=
  match a with
  | some s => if s = "" then b else s
  | none => b

/-- The result of one run of `processMention`: `true` or `null`, and the calls
    made. -/
structure MentionRun where
  result : Option Bool
  calls : List Call
  deriving DecidableEq

/-- `processMention`, the same in both files but for the `createHashtagFacets`
    it calls.  `rootPost.text` is read first, without `?.`, inside the `try`;
    the `catch` turns every error into `null`. -/
def processMention (createHashtagFacets : List String → RichText)
    (mention : Notification) (rootPost : Option RootPost) (o : Outcomes) : MentionRun :=
  match rootPost with
  | none => { result := none, calls := [] }
  | some post =>
    match o.memeApi with
    | .error _ => { result := none, calls := [.memeApi post.text] }
    | .ok data =>
      match data.hashtags with
      | none => { result := none, calls := [.memeApi post.text] }
      | some hashtags =>
        let rich := createHashtagFacets (hashtags ++ ["#trending", "#meme"])
        let image := processAndUploadImage data.url o
        match image.1 with
        | none => { result := none, calls := .memeApi post.text :: image.2 }
        | some imageEmbed =>
          let payload : Post :=
            { text := rich.text
              facets := rich.facets
              reply :=
                { root :=
                    { uri := jsOr (rootPost.map (fun p => p.uri)) mention.uri
                      cid := jsOr (rootPost.map (fun p => p.cid)) mention.cid }
                  parent := { uri := mention.uri, cid := mention.cid } }
              embed := imageEmbed }
          match o.post with
          | .error _ =>
            { result := none, calls := .memeApi post.text :: image.2 ++ [.post payload] }
          | .ok _ =>
            match o.updateSeen with
            | .error _ =>
              { result := none
                calls := .memeApi post.text :: image.2 ++ [.post payload, .updateSeen] }
            | .ok _ =>
              { result := some true
                calls := .memeApi post.text :: image.2 ++ [.post payload, .updateSeen] }

namespace Bot

/-- `processMention` of `src/Bot/index.js`. -/
def processMention (mention : Notification) (rootPost : Option RootPost) (o : Outcomes) :
    MentionRun :=
  MemeCasso.processMention Bot.createHashtagFacets mention rootPost o

end Bot

namespace BotAPI

/-- `processMention` of `src/Bot-API/index.js`. -/
def processMention (mention : Notification) (rootPost : Option RootPost) (o : Outcomes) :
    MentionRun :=
  MemeCasso.processMention BotAPI.createHashtagFacets mention rootPost o

end BotAPI

/-! ## Batch -/

/-- The filter `notif.reason === "mention" && !notif.isRead`. -/
def actionable (notif : Notification) : Bool :=
  notif.reason == "mention" && !notif.isRead

/-- The test `error.message?.includes("auth")` of the batch-level `catch`. -/
def isAuthError (error : JSError) : Bool :=
  match error.message with
  | some m => jsIncludes m "auth"
  | none => false

/-- What was done for one mention of a batch: the mention, the result of
    `processMention`, and the calls of `getRootPost` and `processMention`. -/
structure MentionRecord where
  mention : Notification
  result : Option Bool
  calls : List Call
  deriving DecidableEq

/-- The body run for one mention: `getRootPost`, then `processMention`. -/
def runMention (processMention : Notification → Option RootPost → Outcomes → MentionRun)
    (p : Notification × Outcomes) : MentionRecord :=
  let root := getRootPost p.1.parentUri p.2
  let run := processMention p.1 root.1 p.2
  { mention := p.1, result := run.result, calls := root.2 ++ run.calls }

/-- The HTTP response of the batch endpoint. -/
inductive Response where
  | json200 (success : Bool) (processedMentions : Nat)
  | json401 (error : String)
  | json500 (error : Option String)
  deriving DecidableEq

/-- The result of one batch: the response (server variant only), the session
    state left behind, the batch-level calls in order, and one record per
    mention processed.  The calls of different mentions are kept apart: in the
    server variant they run under `Promise.all`. -/
structure BatchRun where
  response : Option Response
  completion : Completion
  lastLoginTime : Option Int
  calls : List Call
  mentions : List MentionRecord
  deriving DecidableEq

namespace BotAPI

/-- The `catch` of the `app.get("/")` handler. -/
def handlerCatch (error : JSError) (lastLoginTime : Option Int) (calls : List Call) :
    BatchRun :=
  if isAuthError error then
    { response := some (.json401 "Authentication failed"), completion := .returned
      lastLoginTime := none, calls := calls, mentions := [] }
  else
    { response := some (.json500 error.message), completion := .returned
      lastLoginTime := lastLoginTime, calls := calls, mentions := [] }

/-- The `app.get("/")` handler of `src/Bot-API/index.js`.  `login` is what
    `agent.login` answers and `listing` what `listNotifications` answers, each
    notification coming with the outcomes of the calls made for it. -/
def handler (lastLoginTime : Option Int) (currentTime : Int)
    (login : Except JSError Unit)
    (listing : Except JSError (List (Notification × Outcomes))) : BatchRun :=
  let session := loginToBluesky lastLoginTime currentTime login
  match session.completion with
  | .threw e => handlerCatch e session.lastLoginTime session.calls
  | .exited code =>
    { response := none, completion := .exited code
      lastLoginTime := session.lastLoginTime, calls := session.calls, mentions := [] }
  | .returned =>
    match listing with
    | .error e =>
      handlerCatch e session.lastLoginTime (session.calls ++ [.listNotifications 50])
    | .ok notifications =>
      let mentions := notifications.filter (fun p => actionable p.1)
      let results := mentions.map (runMention processMention)
      { response :=
          some (.json200 true (results.filter (fun r => r.result == some true)).length)
        completion := .returned
        lastLoginTime := session.lastLoginTime
        calls := session.calls ++ [.listNotifications 50]
        mentions := results }

end BotAPI

namespace Bot

/-- `checkMentions` of `src/Bot/index.js`, started with the session state
    `lastLoginTime`.  `reloginTime` and `login` are the clock and the answer of
    `agent.login` for the login made in the `catch`. -/
def checkMentions (lastLoginTime : Option Int)
    (listing : Except JSError (List (Notification × Outcomes)))
    (reloginTime : Int) (login : Except JSError Unit) : BatchRun :=
  match listing with
  | .ok notifications =>
    if notifications.length = 0 then
      { response := none, completion := .returned, lastLoginTime := lastLoginTime
        calls := [.listNotifications 50], mentions := [] }
    else
      let mentions := notifications.filter (fun p => actionable p.1)
      { response := none, completion := .returned, lastLoginTime := lastLoginTime
        calls := [.listNotifications 50]
        mentions := mentions.map (runMention processMention) }
  | .error e =>
    if isAuthError e then
      let session := loginToBluesky none reloginTime login
      { response := none, completion := session.completion
        lastLoginTime := session.lastLoginTime
        calls := .listNotifications 50 :: session.calls, mentions := [] }
    else
      { response := none, completion := .returned, lastLoginTime := lastLoginTime
        calls := [.listNotifications 50], mentions := [] }

/-- `main` of `src/Bot/index.js`: `loginToBluesky`, then `checkMentions`. -/
def main (lastLoginTime : Option Int) (currentTime : Int) (login : Except JSError Unit)
    (listing : Except JSError (List (Notification × Outcomes)))
    (reloginTime : Int) (relogin : Except JSError Unit) : BatchRun :=
  let session := loginToBluesky lastLoginTime currentTime login
  match session.completion with
  | .returned =>
    let batch := checkMentions session.lastLoginTime listing reloginTime relogin
    { batch with calls := session.calls ++ batch.calls }
  | c =>
    { response := none, completion := c, lastLoginTime := session.lastLoginTime
      calls := session.calls, mentions := [] }

end Bot

/-! ## Concrete inputs -/

/-- Outcomes in which every collaborator succeeds and the transcoded image
    has `size` bytes. -/
def allSucceed (root : Option RootPost) (hashtags : List String) (size : Nat) : Outcomes :=
  { getPostThread := .ok root
    memeApi := .ok { hashtags := some hashtags, url := "https://img.example/meme.jpg" }
    download := .ok { length := 20000 }
    sharp := .ok { length := size }
    uploadBlob := .ok { ref := "blob-1" }
    post := .ok ()
    updateSeen := .ok () }

/-- An unread mention that replies to a post. -/
def mentionA : Notification :=
  { reason := "mention", isRead := false, uri := "at://a/post/1", cid := "cid-a"
    parentUri := some "at://p/post/0" }

/-- A second unread mention. -/
def mentionB : Notification :=
  { reason := "mention", isRead := false, uri := "at://b/post/2", cid := "cid-b"
    parentUri := some "at://q/post/9" }

/-- The post that `mentionA` replies to. -/
def rootA : RootPost :=
  { text := "hello", uri := "at://p/post/0", cid := "cid-p", embed := none }

/-- A read mention. -/
def mentionRead : Notification :=
  { reason := "mention", isRead := true, uri := "at://c/post/3", cid := "cid-c"
    parentUri := none }

/-- An unread like. -/
def likeUnread : Notification :=
  { reason := "like", isRead := false, uri := "at://d/like/4", cid := "cid-d"
    parentUri := none }

/-- A read follow. -/
def followRead : Notification :=
  { reason := "follow", isRead := true, uri := "at://e/follow/5", cid := "cid-e"
    parentUri := none }

/-- A listing of five notifications: two unread mentions, a read mention and
    two notifications that are not mentions. -/
def mixedBatch : List (Notification × Outcomes) :=
  [ (likeUnread, allSucceed none [] 5000),
    (mentionA, allSucceed (some rootA) ["#x"] 5000),
    (mentionRead, allSucceed none [] 5000),
    (mentionB, allSucceed (some rootA) ["#y"] 5000),
    (followRead, allSucceed none [] 5000) ]

/-- An error whose message contains "auth". -/
def authError : JSError :=
  { message := some "Token expired: please reauthenticate" }

/-- Outcomes in which only the post submission fails, with `authError`. -/
def postRejected : Outcomes :=
  { allSucceed (some rootA) ["#x"] 5000 with post := .error authError }

/-- Outcomes in which the content-generation call fails. -/
def generationFails : Outcomes :=
  { allSucceed (some rootA) ["#x"] 5000 with
    memeApi := .error { message := some "Request failed with status code 500" } }

/-- A server batch, started without a session at clock value 1000, whose only
    mention has its post submission rejected with `authError`. -/
def postRejectedRun : BatchRun :=
  BotAPI.handler none 1000 (.ok ()) (.ok [(mentionA, postRejected)])

/-- The authentication error as the feed service words it. -/
def authRequired : JSError :=
  { message := some "Authentication Required" }

/-- A server batch, started without a session at clock value 1000, whose
    notification listing is rejected with `authRequired`. -/
def listingRejectedRun : BatchRun :=
  BotAPI.handler none 1000 (.ok ()) (.error authRequired)

/-! ## Lemmas on strings -/

theorem foldl_enumFrom_succ (sep : String) (xs : List String) (k : Nat) (r : String) :
    (xs.enumFrom (k + 1)).foldl (fun r p => (if p.1 = 0 then r else r ++ sep) ++ p.2) r
      = xs.foldl (fun r x => r ++ sep ++ x) r := by
  induction xs generalizing k r with
  | nil => rfl
  | cons x xs ih => simp [List.enumFrom, ih]

theorem join_cons (sep a : String) (as : List String) :
    join sep (a :: as) = as.foldl (fun r x => r ++ sep ++ x) a := by
  have h : ("" : String) ++ a = a := by
    apply String.ext; simp
  simp [join, List.enum, List.enumFrom, foldl_enumFrom_succ, h]

theorem foldl_sep_data (sep : String) (as : List String) (a : String) :
    (as.foldl (fun r x => r ++ sep ++ x) a).data
      = a.data ++ as.flatMap (fun x => sep.data ++ x.data) := by
  induction as generalizing a with
  | nil => simp
  | cons x xs ih => simp [ih, List.append_assoc]

theorem intercalate_go_eq (sep : String) (as : List String) (a : String) :
    String.intercalate.go a sep as = as.foldl (fun r x => r ++ sep ++ x) a := by
  induction as generalizing a with
  | nil => rfl
  | cons x xs ih => simp [String.intercalate.go, ih]

theorem join_eq_intercalate (sep : String) (xs : List String) :
    join sep xs = sep.intercalate xs := by
  cases xs with
  | nil => rfl
  | cons a as => rw [join_cons, String.intercalate, intercalate_go_eq]

theorem join_data_split (sep : String) (pre post : List String) (h : String) :
    (join sep (pre ++ h :: post)).data
      = pre.flatMap (fun x => x.data ++ sep.data) ++ h.data
          ++ post.flatMap (fun x => sep.data ++ x.data) := by
  cases pre with
  | nil => simp [join_cons, foldl_sep_data]
  | cons a as =>
    simp only [List.cons_append, join_cons, foldl_sep_data]
    induction as generalizing a with
    | nil => simp
    | cons b bs ih =>
      have := ih b
      simp only [List.flatMap_cons, List.cons_append, List.append_assoc] at this ⊢
      rw [this]

theorem utf8_data_append (a b : List Char) :
    utf8 ⟨a ++ b⟩ = utf8 ⟨a⟩ ++ utf8 ⟨b⟩ := by
  simp [utf8]

theorem utf16Size_ascii (c : Char) (hc : c.val.toNat < 128) : utf16Size c = 1 := by
  have : c.val.toNat < 0x10000 := by omega
  simp [utf16Size, this]

theorem utf8Size_ascii (c : Char) (hc : c.val.toNat < 128) :
    (String.utf8EncodeChar c).length = 1 := by
  have h : c.val ≤ 0x7f := by
    rw [UInt32.le_def]
    show c.val.toNat ≤ 127
    omega
  simp [String.utf8EncodeChar, h]

theorem jsLength_ascii (cs : List Char) (hcs : ∀ c ∈ cs, c.val.toNat < 128) :
    jsLength ⟨cs⟩ = cs.length := by
  induction cs with
  | nil => rfl
  | cons c cs ih =>
    have h1 := utf16Size_ascii c (hcs c (by simp))
    have h2 := ih (fun d hd => hcs d (by simp [hd]))
    simp only [jsLength, List.map_cons, List.sum_cons, List.length_cons] at h2 ⊢
    omega

theorem utf8_length_ascii (cs : List Char) (hcs : ∀ c ∈ cs, c.val.toNat < 128) :
    (utf8 ⟨cs⟩).length = cs.length := by
  induction cs with
  | nil => rfl
  | cons c cs ih =>
    have h1 := utf8Size_ascii c (hcs c (by simp))
    have h2 := ih (fun d hd => hcs d (by simp [hd]))
    simp only [utf8, List.flatMap_cons, List.length_append, List.length_cons] at h2 ⊢
    omega

/-! ## Lemmas on the facet builders -/

theorem foldl_facets (hashtags : List String) (acc : List Facet) (position : Nat) :
    (hashtags.foldl
      (fun (st : List Facet × Nat) tag =>
        (st.1 ++ [hashtagFacet st.2 tag], st.2 + (jsLength tag + 1)))
      (acc, position)).1 = acc ++ facetsFrom position hashtags := by
  induction hashtags generalizing acc position with
  | nil => simp [facetsFrom]
  | cons t ts ih => simp [facetsFrom, ih]

theorem bot_facets_eq (hashtags : List String) :
    (Bot.createHashtagFacets hashtags).facets = facetsFrom 0 hashtags := by
  simp [Bot.createHashtagFacets, foldl_facets]

theorem facetsFrom_length (hashtags : List String) (position : Nat) :
    (facetsFrom position hashtags).length = hashtags.length := by
  induction hashtags generalizing position with
  | nil => rfl
  | cons t ts ih => simp [facetsFrom, ih]

theorem facetsFrom_append (pre post : List String) (position : Nat) :
    facetsFrom position (pre ++ post)
      = facetsFrom position pre
        ++ facetsFrom (position + (pre.map (fun h => jsLength h + 1)).sum) post := by
  induction pre generalizing position with
  | nil => simp [facetsFrom]
  | cons t ts ih => simp [facetsFrom, ih, Nat.add_assoc]

theorem byteSlice_middle (a b c : List UInt8) :
    byteSlice (a ++ b ++ c) a.length (a.length + b.length) = b := by
  simp [byteSlice, List.append_assoc]

theorem jsReplace_hash (t : List Char) : jsReplace ⟨'#' :: t⟩ "#" "" = ⟨t⟩ := by
  show String.mk (replaceFirst ['#'] [] ('#' :: t)) = ⟨t⟩
  simp [replaceFirst, List.isPrefixOf]

theorem prefix_length (pre : List String) (sep : List Char) :
    (pre.flatMap (fun x => x.data ++ sep)).length
      = (pre.map (fun h => h.length + sep.length)).sum := by
  induction pre with
  | nil => rfl
  | cons x xs ih =>
    simp only [List.flatMap_cons, List.length_append, List.map_cons, List.sum_cons, ih]
    rfl

theorem map_jsLength_ascii (pre : List String)
    (hpre : ∀ h ∈ pre, ∀ c ∈ h.data, c.val.toNat < 128) :
    pre.map (fun h => jsLength h + 1) = pre.map (fun h => h.length + 1) := by
  apply List.map_congr_left
  intro h hh
  have := jsLength_ascii h.data (hpre h hh)
  simp only [String.length]
  rw [← this]

/-- The facet at one position of the scheduled-job builder, with the list of
    hashtags split around that position. -/
theorem bot_facet_at (hashtags pre post : List String) (h : String)
    (hsplit : hashtags = pre ++ h :: post)
    (hascii : ∀ x ∈ hashtags, IsAsciiHashtag x) :
    ∃ f tag, (Bot.createHashtagFacets hashtags).facets[pre.length]? = some f ∧
      f.index.byteStart = (pre.map (fun x => x.length + 1)).sum ∧
      f.index.byteEnd = f.index.byteStart + h.length ∧
      byteSlice (utf8 (Bot.createHashtagFacets hashtags).text)
        f.index.byteStart f.index.byteEnd = utf8 h ∧
      f.features = [{ type := "app.bsky.richtext.facet#tag", tag := tag }] ∧
      "#" ++ tag = h := by
  subst hsplit
  have hpre : ∀ x ∈ pre, ∀ c ∈ x.data, c.val.toNat < 128 :=
    fun x hx c hc => ((hascii x (by simp [hx])).2 c hc).1
  have hh := hascii h (by simp)
  have hhascii : ∀ c ∈ h.data, c.val.toNat < 128 := fun c hc => (hh.2 c hc).1
  have hstart : (pre.map (fun x => jsLength x + 1)).sum
      = (pre.map (fun x => x.length + 1)).sum := by rw [map_jsLength_ascii pre hpre]
  have hlen : jsLength h = h.length := jsLength_ascii h.data hhascii
  obtain ⟨t, ht⟩ : ∃ t, h.data = '#' :: t := by
    have h1 := hh.1
    cases hd : h.data with
    | nil => simp [hd] at h1
    | cons c t => simp [hd] at h1; exact ⟨t, by rw [h1]⟩
  have hheq : h = ⟨'#' :: t⟩ := String.ext ht
  refine ⟨hashtagFacet (pre.map (fun (x : String) => x.length + 1)).sum h, ⟨t⟩, ?_, rfl, ?_, ?_, ?_, ?_⟩
  · rw [bot_facets_eq, facetsFrom_append, List.getElem?_append_right (by simp [facetsFrom_length])]
    simp [facetsFrom_length, facetsFrom, hstart]
  · simp [hashtagFacet, hlen]
  · have hP : ∀ c ∈ pre.flatMap (fun x => x.data ++ " ".data), c.val.toNat < 128 := by
      intro c hc
      rw [List.mem_flatMap] at hc
      obtain ⟨x, hx, hcx⟩ := hc
      rw [List.mem_append] at hcx
      rcases hcx with hcx | hcx
      · exact hpre x hx c hcx
      · simp at hcx; subst hcx; decide
    have htext : utf8 (Bot.createHashtagFacets (pre ++ h :: post)).text
        = utf8 ⟨pre.flatMap (fun x => x.data ++ " ".data)⟩ ++ utf8 h
          ++ utf8 ⟨post.flatMap (fun x => " ".data ++ x.data)⟩ := by
      simp only [Bot.createHashtagFacets]
      simp only [utf8, join_data_split, List.flatMap_append]
    have hPlen : (utf8 ⟨pre.flatMap (fun x => x.data ++ " ".data)⟩).length
        = (pre.map (fun x => x.length + 1)).sum := by
      rw [utf8_length_ascii _ hP, prefix_length]; rfl
    have hHlen : (utf8 h).length = h.length := utf8_length_ascii h.data hhascii
    rw [htext]
    simp only [hashtagFacet, hlen]
    rw [← hPlen, ← hHlen]
    exact byteSlice_middle _ _ _
  · simp only [hashtagFacet]
    rw [hheq, jsReplace_hash]
  · rw [hheq]; rfl

/-- C1: on ASCII hashtags (each starting with `#`, without whitespace) the
    scheduled-job `createHashtagFacets` returns the hashtags joined by single
    spaces and one facet per hashtag, in order; facet `i` starts at the sum of
    `length + 1` over the earlier hashtags, ends `length` bytes later, covers
    exactly the bytes of hashtag `i` in the UTF-8 text, and is tagged with
    hashtag `i` without its leading `#`. -/
theorem bot_createHashtagFacets_ascii (hashtags : List String)
    (hascii : ∀ h ∈ hashtags, IsAsciiHashtag h) :
    (Bot.createHashtagFacets hashtags).text = " ".intercalate hashtags ∧
    (Bot.createHashtagFacets hashtags).facets.length = hashtags.length ∧
    ∀ (i : Nat) (hi : i < hashtags.length),
      ∃ f tag, (Bot.createHashtagFacets hashtags).facets[i]? = some f ∧
        f.index.byteStart = ((hashtags.take i).map (fun h => h.length + 1)).sum ∧
        f.index.byteEnd = f.index.byteStart + hashtags[i].length ∧
        byteSlice (utf8 (Bot.createHashtagFacets hashtags).text)
          f.index.byteStart f.index.byteEnd = utf8 hashtags[i] ∧
        f.features = [{ type := "app.bsky.richtext.facet#tag", tag := tag }] ∧
        "#" ++ tag = hashtags[i] := by
  refine ⟨join_eq_intercalate _ _, ?_, ?_⟩
  · rw [bot_facets_eq, facetsFrom_length]
  · intro i hi
    have hsplit : hashtags = hashtags.take i ++ hashtags[i] :: hashtags.drop (i + 1) := by
      rw [← List.drop_eq_getElem_cons hi, List.take_append_drop]
    have hlen : (hashtags.take i).length = i := by
      rw [List.length_take]; omega
    have := bot_facet_at hashtags (hashtags.take i) (hashtags.drop (i + 1)) hashtags[i]
      hsplit hascii
    rw [hlen] at this
    exact this

/-- Witness for C1 on `["#foo", "#bar"]`. -/
theorem bot_createHashtagFacets_ascii_witness :
    (∀ h ∈ ["#foo", "#bar"], IsAsciiHashtag h) ∧
    (Bot.createHashtagFacets ["#foo", "#bar"]).text = "#foo #bar" ∧
    (Bot.createHashtagFacets ["#foo", "#bar"]).facets.map (fun f => f.index)
      = [⟨0, 4⟩, ⟨5, 9⟩] :=
  ⟨by decide, (bot_createHashtagFacets_ascii ["#foo", "#bar"] (by decide)).1, by decide⟩

/-! ## Lemmas on the pipeline -/

theorem processAndUploadImage_calls (imageUrl : String) (o : Outcomes) :
    ∀ c ∈ (processAndUploadImage imageUrl o).2,
      c = .download imageUrl ∨ ∃ b, c = .uploadBlob b "image/jpeg" := by
  intro c hc
  unfold processAndUploadImage at hc
  split at hc
  · simp_all
  · split at hc
    · simp_all
    · split at hc
      · simp_all
      · split at hc <;> simp at hc <;> rcases hc with hc | hc <;> simp [hc]

theorem updateSeen_not_mem_image (imageUrl : String) (o : Outcomes) :
    Call.updateSeen ∉ (processAndUploadImage imageUrl o).2 := by
  intro h
  rcases processAndUploadImage_calls imageUrl o _ h with h | ⟨b, h⟩ <;> cases h

theorem post_not_mem_image (imageUrl : String) (o : Outcomes) (p : Post) :
    Call.post p ∉ (processAndUploadImage imageUrl o).2 := by
  intro h
  rcases processAndUploadImage_calls imageUrl o _ h with h | ⟨b, h⟩ <;> cases h

/-- C5: in every run of `processMention`, whatever the collaborators answer,
    `updateSeen` is called at most once; when it is called, the post
    submission succeeded and is the call right before it, and no other post or
    `updateSeen` was made; it is never called when content generation, image
    processing or post submission failed; and `true` is returned only if both
    the post and the acknowledgment succeeded. -/
theorem processMention_acknowledges_after_post
    (createHashtagFacets : List String → RichText)
    (mention : Notification) (rootPost : Option RootPost) (o : Outcomes) :
    (processMention createHashtagFacets mention rootPost o).calls.count .updateSeen ≤ 1 ∧
    (Call.updateSeen ∈ (processMention createHashtagFacets mention rootPost o).calls →
      o.post = .ok () ∧
      ∃ before payload,
        (processMention createHashtagFacets mention rootPost o).calls
          = before ++ [.post payload, .updateSeen] ∧
        Call.updateSeen ∉ before ∧ ∀ p, Call.post p ∉ before) ∧
    (((∃ e, o.memeApi = .error e) ∨
      (∃ data, o.memeApi = .ok data ∧ data.hashtags = none) ∨
      (∃ data, o.memeApi = .ok data ∧ (processAndUploadImage data.url o).1 = none) ∨
      (∃ e, o.post = .error e)) →
      Call.updateSeen ∉ (processMention createHashtagFacets mention rootPost o).calls ∧
      (processMention createHashtagFacets mention rootPost o).result = none) ∧
    ((processMention createHashtagFacets mention rootPost o).result = some true →
      o.post = .ok () ∧ o.updateSeen = .ok () ∧
      (∃ payload, Call.post payload
        ∈ (processMention createHashtagFacets mention rootPost o).calls) ∧
      Call.updateSeen ∈ (processMention createHashtagFacets mention rootPost o).calls) := by
  cases rootPost with
  | none => simp [processMention]
  | some post =>
    cases hm : o.memeApi with
    | error e => simp [processMention, hm]
    | ok data =>
      cases hh : data.hashtags with
      | none => simp [processMention, hm, hh]
      | some hashtags =>
        have hU := updateSeen_not_mem_image data.url o
        have hP := post_not_mem_image data.url o
        have hC := List.count_eq_zero_of_not_mem hU
        cases hi : (processAndUploadImage data.url o).1 with
        | none => simp [processMention, hm, hh, hi, hU, hC]
        | some imageEmbed =>
          cases hp : o.post with
          | error e => simp [processMention, hm, hh, hi, hp, hU, hC]
          | ok u =>
            cases hs : o.updateSeen with
            | error e =>
              have hcalls : ∃ payload,
                  (processMention createHashtagFacets mention (some post) o).calls
                    = (.memeApi post.text :: (processAndUploadImage data.url o).2)
                      ++ [.post payload, .updateSeen] := by
                simp only [processMention, hm, hh, hi, hp, hs]
                exact ⟨_, rfl⟩
              have hres : (processMention createHashtagFacets mention (some post) o).result
                  = none := by simp [processMention, hm, hh, hi, hp, hs]
              obtain ⟨payload, hcalls⟩ := hcalls
              rw [hcalls, hres]
              refine ⟨?_, ?_, ?_, ?_⟩
              · simp [List.count_cons, List.count_append, hC]
              · intro _
                refine ⟨rfl, _, payload, rfl, ?_, ?_⟩
                · simp [hU]
                · intro p; simp [hP]
              · simp [hh, hi]
              · simp
            | ok v =>
              have hcalls : ∃ payload,
                  (processMention createHashtagFacets mention (some post) o).calls
                    = (.memeApi post.text :: (processAndUploadImage data.url o).2)
                      ++ [.post payload, .updateSeen] := by
                simp only [processMention, hm, hh, hi, hp, hs]
                exact ⟨_, rfl⟩
              have hres : (processMention createHashtagFacets mention (some post) o).result
                  = some true := by simp [processMention, hm, hh, hi, hp, hs]
              obtain ⟨payload, hcalls⟩ := hcalls
              rw [hcalls, hres]
              refine ⟨?_, ?_, ?_, ?_⟩
              · simp [List.count_cons, List.count_append, hC]
              · intro _
                refine ⟨rfl, _, payload, rfl, ?_, ?_⟩
                · simp [hU]
                · intro p; simp [hP]
              · simp [hh, hi]
              · intro _
                refine ⟨rfl, rfl, ⟨payload, ?_⟩, ?_⟩ <;> simp

/-- C4: with an absent root post, `processMention` of either variant reads
    `rootPost.text` first, which throws inside the `try`; it makes no call at
    all, submits no reply and returns `null`, whatever the collaborators would
    have answered. -/
theorem processMention_absent_root (mention : Notification) (o : Outcomes) :
    Bot.processMention mention none o = { result := none, calls := [] } ∧
    BotAPI.processMention mention none o = { result := none, calls := [] } :=
  ⟨rfl, rfl⟩

/-- C10: when the transcoding step returns an image of `n` bytes,
    `processAndUploadImage` returns an embed only if `n ≤ 10,000,000`; above
    that it returns `null` without any upload call; at or below it, with a
    successful upload, it returns an embed with exactly one image, whose blob
    is the uploaded handle and whose alt text is "Default response image". -/
theorem processAndUploadImage_size_limit (imageUrl : String) (o : Outcomes)
    (raw processedImage : Buffer)
    (hdownload : o.download = .ok raw) (hsharp : o.sharp = .ok processedImage) :
    ((processAndUploadImage imageUrl o).1 ≠ none → processedImage.length ≤ 10000000) ∧
    (processedImage.length > 10000000 →
      (processAndUploadImage imageUrl o).1 = none ∧
      ∀ b e, Call.uploadBlob b e ∉ (processAndUploadImage imageUrl o).2) ∧
    (∀ blob, processedImage.length ≤ 10000000 → o.uploadBlob = .ok blob →
      (processAndUploadImage imageUrl o).1
        = some { type := "app.bsky.embed.images"
                 images := [{ alt := "Default response image", image := blob }] } ∧
      (processAndUploadImage imageUrl o).2
        = [.download imageUrl, .uploadBlob processedImage "image/jpeg"]) := by
  by_cases hlen : processedImage.length > MAX_IMAGE_SIZE
  · have h : processAndUploadImage imageUrl o = (none, [.download imageUrl]) := by
      simp [processAndUploadImage, hdownload, hsharp, hlen]
    have hlen2 : ¬ processedImage.length ≤ 10000000 := by
      simp only [MAX_IMAGE_SIZE] at hlen; omega
    rw [h]
    simp [hlen2]
  · have hle : processedImage.length ≤ 10000000 := by
      simp only [MAX_IMAGE_SIZE] at hlen; omega
    have hgt : ¬ processedImage.length > 10000000 := by omega
    refine ⟨fun _ => hle, fun h => absurd h hgt, ?_⟩
    intro blob _ hup
    simp [processAndUploadImage, hdownload, hsharp, hlen, hup]

/-- Witness for C10: an image of 10,000,001 bytes is refused. -/
theorem processAndUploadImage_size_limit_witness :
    (processAndUploadImage "https://img.example/meme.jpg" (allSucceed none [] 10000001)).1
      = none :=
  ((processAndUploadImage_size_limit "https://img.example/meme.jpg"
      (allSucceed none [] 10000001) { length := 20000 } { length := 10000001 } rfl rfl).2.1
    (by decide)).1

/-- Within the timeout, and with a first login at a clock value other than 0,
    the second call of `loginToBluesky` reuses the session. -/
theorem loginToBluesky_reuse (t1 t2 : Int) (h0 : t1 ≠ 0) (hlt : t2 - t1 < 3600000)
    (login : Except JSError Unit) :
    BotAPI.loginToBluesky (BotAPI.loginToBluesky none t1 (.ok ())).lastLoginTime t2 login
      = { completion := .returned, lastLoginTime := some t1, calls := [] } ∧
    Bot.loginToBluesky (Bot.loginToBluesky none t1 (.ok ())).lastLoginTime t2 login
      = { completion := .returned, lastLoginTime := some t1, calls := [] } := by
  simp [BotAPI.loginToBluesky, Bot.loginToBluesky, sessionFresh, LOGIN_TIMEOUT, h0, hlt]

/-- After the timeout, or after a reset of `lastLoginTime` to `null`, the call
    logs in once more; a failed login leaves `lastLoginTime` as it was. -/
theorem loginToBluesky_expired (last : Option Int) (t : Int)
    (hexp : last = none ∨ ∃ t1, last = some t1 ∧ t - t1 ≥ 3600000) (e : JSError) :
    BotAPI.loginToBluesky last t (.ok ())
      = { completion := .returned, lastLoginTime := some t, calls := [.login] } ∧
    Bot.loginToBluesky last t (.ok ())
      = { completion := .returned, lastLoginTime := some t, calls := [.login] } ∧
    BotAPI.loginToBluesky last t (.error e)
      = { completion := .threw e, lastLoginTime := last, calls := [.login] } ∧
    Bot.loginToBluesky last t (.error e)
      = { completion := .exited 1, lastLoginTime := last, calls := [.login] } := by
  have hfresh : sessionFresh last t = false := by
    rcases hexp with h | ⟨t1, h, hge⟩
    · simp [h, sessionFresh]
    · have : ¬ t - t1 < 3600000 := by omega
      simp [h, sessionFresh, LOGIN_TIMEOUT, this]
  simp [BotAPI.loginToBluesky, Bot.loginToBluesky, hfresh]

/-- At clock value 0 the login stores `lastLoginTime = 0`, which the guard
    `lastLoginTime && ...` takes for "no session": this is the one clock value
    at which a second call within the window would log in again. -/
theorem loginToBluesky_clock_zero :
    (BotAPI.loginToBluesky none 0 (.ok ())).lastLoginTime = some 0 ∧
    ((BotAPI.loginToBluesky none 0 (.ok ())).calls
      ++ (BotAPI.loginToBluesky (BotAPI.loginToBluesky none 0 (.ok ())).lastLoginTime 1
            (.ok ())).calls).count .login = 2 ∧
    ((Bot.loginToBluesky none 0 (.ok ())).calls
      ++ (Bot.loginToBluesky (Bot.loginToBluesky none 0 (.ok ())).lastLoginTime 1
            (.ok ())).calls).count .login = 2 := by
  decide

theorem loginToBluesky_changes_state (last : Option Int) (t : Int)
    (login : Except JSError Unit) :
    ((BotAPI.loginToBluesky last t login).lastLoginTime ≠ last →
      login = .ok () ∧ (BotAPI.loginToBluesky last t login).calls = [.login] ∧
      (BotAPI.loginToBluesky last t login).lastLoginTime = some t) ∧
    ((Bot.loginToBluesky last t login).lastLoginTime ≠ last →
      login = .ok () ∧ (Bot.loginToBluesky last t login).calls = [.login] ∧
      (Bot.loginToBluesky last t login).lastLoginTime = some t) := by
  by_cases hf : sessionFresh last t = true
  · simp [BotAPI.loginToBluesky, Bot.loginToBluesky, hf]
  · cases login with
    | error e => simp [BotAPI.loginToBluesky, Bot.loginToBluesky, hf]
    | ok u => simp [BotAPI.loginToBluesky, Bot.loginToBluesky, hf]

/-- C7: with `lastLoginTime` as the session state and the clock as an input,
    for a clock that is off 0 (the Unix epoch itself, which `Date.now()` does
    not return) at the first login: starting without a session, two successive
    calls of `loginToBluesky` at `t1 ≤ t2` with `t2 - t1 < 3,600,000`, the
    authentication succeeding, make exactly one authentication call in total;
    a further call at `t3` with `t3 - t1 ≥ 3,600,000`, or a call made after
    `lastLoginTime` was reset to `null`, makes exactly one more; and
    `lastLoginTime` changes only when an authentication call succeeds, a
    failed one leaving it as it was.  In both variants. -/
theorem loginToBluesky_session (t1 t2 t3 : Int) (hclock : t1 ≠ 0) (_horder : t1 ≤ t2)
    (hwindow : t2 - t1 < 3600000) (hexpired : t3 - t1 ≥ 3600000) :
    (((BotAPI.loginToBluesky none t1 (.ok ())).calls
        ++ (BotAPI.loginToBluesky (BotAPI.loginToBluesky none t1 (.ok ())).lastLoginTime t2
              (.ok ())).calls).count .login = 1 ∧
      (BotAPI.loginToBluesky
          (BotAPI.loginToBluesky (BotAPI.loginToBluesky none t1 (.ok ())).lastLoginTime t2
            (.ok ())).lastLoginTime t3 (.ok ())).calls.count .login = 1 ∧
      (∀ t, (BotAPI.loginToBluesky none t (.ok ())).calls.count .login = 1) ∧
      (∀ last t login, (BotAPI.loginToBluesky last t login).lastLoginTime ≠ last →
        login = .ok () ∧ (BotAPI.loginToBluesky last t login).calls = [.login] ∧
        (BotAPI.loginToBluesky last t login).lastLoginTime = some t) ∧
      (∀ last t e, (BotAPI.loginToBluesky last t (.error e)).lastLoginTime = last)) ∧
    (((Bot.loginToBluesky none t1 (.ok ())).calls
        ++ (Bot.loginToBluesky (Bot.loginToBluesky none t1 (.ok ())).lastLoginTime t2
              (.ok ())).calls).count .login = 1 ∧
      (Bot.loginToBluesky
          (Bot.loginToBluesky (Bot.loginToBluesky none t1 (.ok ())).lastLoginTime t2
            (.ok ())).lastLoginTime t3 (.ok ())).calls.count .login = 1 ∧
      (∀ t, (Bot.loginToBluesky none t (.ok ())).calls.count .login = 1) ∧
      (∀ last t login, (Bot.loginToBluesky last t login).lastLoginTime ≠ last →
        login = .ok () ∧ (Bot.loginToBluesky last t login).calls = [.login] ∧
        (Bot.loginToBluesky last t login).lastLoginTime = some t) ∧
      (∀ last t e, (Bot.loginToBluesky last t (.error e)).lastLoginTime = last)) := by
  have hfirst := loginToBluesky_expired none t1 (Or.inl rfl) { message := none }
  have hsecond := loginToBluesky_reuse t1 t2 hclock hwindow (.ok ())
  have hthird := loginToBluesky_expired (some t1) t3 (Or.inr ⟨t1, rfl, hexpired⟩)
    { message := none }
  have hreset : ∀ t, (BotAPI.loginToBluesky none t (.ok ())).calls = [.login] ∧
      (Bot.loginToBluesky none t (.ok ())).calls = [.login] := by
    intro t
    have h := loginToBluesky_expired none t (Or.inl rfl) { message := none }
    exact ⟨by rw [h.1], by rw [h.2.1]⟩
  have hfail : ∀ (last : Option Int) (t : Int) (e : JSError),
      (BotAPI.loginToBluesky last t (.error e)).lastLoginTime = last ∧
      (Bot.loginToBluesky last t (.error e)).lastLoginTime = last := by
    intro last t e
    by_cases hf : sessionFresh last t = true <;>
      simp [BotAPI.loginToBluesky, Bot.loginToBluesky, hf]
  refine ⟨⟨?_, ?_, ?_, ?_, ?_⟩, ⟨?_, ?_, ?_, ?_, ?_⟩⟩
  · rw [hsecond.1, hfirst.1]; rfl
  · rw [hsecond.1, hthird.1]; rfl
  · intro t; rw [(hreset t).1]; rfl
  · intro last t login; exact (loginToBluesky_changes_state last t login).1
  · intro last t e; exact (hfail last t e).1
  · rw [hsecond.2, hfirst.2.1]; rfl
  · rw [hsecond.2, hthird.2.1]; rfl
  · intro t; rw [(hreset t).2]; rfl
  · intro last t login; exact (loginToBluesky_changes_state last t login).2
  · intro last t e; exact (hfail last t e).2

/-- Witness for C7: logins at clock values 1000 and 2000, then at 3,601,000. -/
theorem loginToBluesky_session_witness :
    ((1000 : Int) ≠ 0 ∧ (1000 : Int) ≤ 2000 ∧ (2000 : Int) - 1000 < 3600000 ∧
      (3601000 : Int) - 1000 ≥ 3600000) ∧
    ((BotAPI.loginToBluesky none 1000 (.ok ())).calls
      ++ (BotAPI.loginToBluesky (BotAPI.loginToBluesky none 1000 (.ok ())).lastLoginTime 2000
            (.ok ())).calls).count .login = 1 :=
  ⟨by decide,
   (loginToBluesky_session 1000 2000 3601000 (by decide) (by decide) (by decide)
      (by decide)).1.1⟩

/-- The server builder places facet `i` at `0` when `i = 0` and at `i + 1`
    otherwise: its accumulator is the array of facets, not the text. -/
theorem botapi_foldl_facets (hashtags : List String) (acc : List Facet) :
    (hashtags.enumFrom acc.length).foldl
      (fun (acc : List Facet) p =>
        acc ++ [hashtagFacet (if p.1 = 0 then 0 else acc.length + 1) p.2])
      acc
      = acc ++ (hashtags.enumFrom acc.length).map
          (fun p => hashtagFacet (if p.1 = 0 then 0 else p.1 + 1) p.2) := by
  induction hashtags generalizing acc with
  | nil => simp
  | cons t ts ih =>
    have := ih (acc ++ [hashtagFacet (if acc.length = 0 then 0 else acc.length + 1) t])
    simp only [List.length_append, List.length_singleton] at this
    simp only [List.enumFrom, List.foldl_cons, List.map_cons, this, List.append_assoc,
      List.singleton_append]

/-- C2: on `["#foo", "#bar"]` the server `createHashtagFacets` returns the
    text `"#foo #bar"` with facets `[0,4)` tagged `foo` and `[2,6)` tagged
    `bar`: the second range starts at `acc.length + 1 = 2`, overlaps the first
    and does not cover `#bar`, which is at `[5,9)`. -/
theorem botapi_createHashtagFacets_foo_bar :
    BotAPI.createHashtagFacets ["#foo", "#bar"]
      = { text := "#foo #bar"
          facets :=
            [ { index := { byteStart := 0, byteEnd := 4 }
                features := [{ type := "app.bsky.richtext.facet#tag", tag := "foo" }] },
              { index := { byteStart := 2, byteEnd := 6 }
                features := [{ type := "app.bsky.richtext.facet#tag", tag := "bar" }] } ] } ∧
    byteSlice (utf8 "#foo #bar") 2 6 ≠ utf8 "#bar" ∧
    byteSlice (utf8 "#foo #bar") 5 9 = utf8 "#bar" := by
  decide

/-- C9: on the hashtag `#é`, whose UTF-8 encoding has 3 bytes, both builders
    return the range `[0,2)`: `tag.length` counts UTF-16 code units.  On
    `["#é", "#b"]` the scheduled-job builder starts the second facet at 3,
    while `#b` starts at byte 4 of the text. -/
theorem createHashtagFacets_non_ascii :
    (utf8 "#é").length = 3 ∧
    (Bot.createHashtagFacets ["#é"]).facets.map (fun f => f.index) = [⟨0, 2⟩] ∧
    (BotAPI.createHashtagFacets ["#é"]).facets.map (fun f => f.index) = [⟨0, 2⟩] ∧
    (Bot.createHashtagFacets ["#é", "#b"]).facets.map (fun f => f.index)
      = [⟨0, 2⟩, ⟨3, 5⟩] ∧
    byteSlice (utf8 (Bot.createHashtagFacets ["#é", "#b"]).text) 4 6 = utf8 "#b" ∧
    byteSlice (utf8 (Bot.createHashtagFacets ["#é", "#b"]).text) 3 5 ≠ utf8 "#b" := by
  decide

/-! ## Lemmas on the batch -/

theorem botapi_facets_eq (hashtags : List String) :
    (BotAPI.createHashtagFacets hashtags).facets
      = hashtags.enum.map (fun p => hashtagFacet (if p.1 = 0 then 0 else p.1 + 1) p.2) := by
  have := botapi_foldl_facets hashtags []
  simpa [BotAPI.createHashtagFacets, List.enum] using this

theorem loginToBluesky_returns (lastLoginTime : Option Int) (currentTime : Int)
    (login : Except JSError Unit)
    (hlogin : sessionFresh lastLoginTime currentTime = true ∨ login = .ok ()) :
    (BotAPI.loginToBluesky lastLoginTime currentTime login).completion = .returned ∧
    (BotAPI.loginToBluesky lastLoginTime currentTime login).lastLoginTime
      = (if sessionFresh lastLoginTime currentTime then lastLoginTime else some currentTime) := by
  by_cases hf : sessionFresh lastLoginTime currentTime = true
  · simp [BotAPI.loginToBluesky, hf]
  · rcases hlogin with h | h
    · exact absurd h hf
    · simp [BotAPI.loginToBluesky, hf, h]

theorem handler_listing_ok (lastLoginTime : Option Int) (currentTime : Int)
    (login : Except JSError Unit) (notifications : List (Notification × Outcomes))
    (hlogin : sessionFresh lastLoginTime currentTime = true ∨ login = .ok ()) :
    BotAPI.handler lastLoginTime currentTime login (.ok notifications)
      = { response := some (.json200 true
            (((notifications.filter (fun p => actionable p.1)).map
              (runMention BotAPI.processMention)).filter
                (fun r => r.result == some true)).length)
          completion := .returned
          lastLoginTime :=
            if sessionFresh lastLoginTime currentTime then lastLoginTime else some currentTime
          calls := (BotAPI.loginToBluesky lastLoginTime currentTime login).calls
                    ++ [.listNotifications 50]
          mentions := (notifications.filter (fun p => actionable p.1)).map
              (runMention BotAPI.processMention) } := by
  obtain ⟨h1, h2⟩ := loginToBluesky_returns lastLoginTime currentTime login hlogin
  simp only [BotAPI.handler, h1, h2]

theorem actionable_iff (n : Notification) :
    actionable n = true ↔ n.reason = "mention" ∧ n.isRead = false := by
  simp [actionable]

theorem map_mention_runMention
    (pm : Notification → Option RootPost → Outcomes → MentionRun)
    (l : List (Notification × Outcomes)) :
    (l.map (runMention pm)).map (fun r => r.mention) = l.map (fun p => p.1) := by
  simp [runMention, Function.comp_def]

/-- C3: once the listing call has answered, the mentions selected for
    processing, by the server handler and by the scheduled job alike, are
    exactly the notifications with reason "mention" and `isRead` false, in
    upstream order (a sub-sequence of the listing, which leaves no such
    notification out); an empty listing gives no mention and no error. -/
theorem mentions_selected (lastLoginTime : Option Int) (currentTime reloginTime : Int)
    (login relogin : Except JSError Unit) (notifications : List (Notification × Outcomes))
    (hlogin : sessionFresh lastLoginTime currentTime = true ∨ login = .ok ()) :
    ((BotAPI.handler lastLoginTime currentTime login (.ok notifications)).mentions.map
        (fun r => r.mention)
      = (notifications.map (fun p => p.1)).filter
          (fun n => decide (n.reason = "mention" ∧ n.isRead = false))) ∧
    ((Bot.checkMentions lastLoginTime (.ok notifications) reloginTime relogin).mentions.map
        (fun r => r.mention)
      = (notifications.map (fun p => p.1)).filter
          (fun n => decide (n.reason = "mention" ∧ n.isRead = false))) ∧
    ((BotAPI.handler lastLoginTime currentTime login (.ok notifications)).mentions.map
        (fun r => r.mention)).Sublist (notifications.map (fun p => p.1)) ∧
    (∀ n, n ∈ (BotAPI.handler lastLoginTime currentTime login (.ok notifications)).mentions.map
        (fun r => r.mention)
      ↔ n ∈ notifications.map (fun p => p.1) ∧ n.reason = "mention" ∧ n.isRead = false) ∧
    (notifications = [] →
      (BotAPI.handler lastLoginTime currentTime login (.ok notifications)).mentions = [] ∧
      (BotAPI.handler lastLoginTime currentTime login (.ok notifications)).response
        = some (.json200 true 0) ∧
      (Bot.checkMentions lastLoginTime (.ok notifications) reloginTime relogin).mentions = [] ∧
      (Bot.checkMentions lastLoginTime (.ok notifications) reloginTime relogin).completion
        = .returned) := by
  have hfilter : (notifications.filter (fun p => actionable p.1)).map (fun p => p.1)
      = (notifications.map (fun p => p.1)).filter
          (fun n => decide (n.reason = "mention" ∧ n.isRead = false)) := by
    rw [List.filter_map]
    congr 1
    apply List.filter_congr
    intro p _
    by_cases h : p.1.reason = "mention" <;> simp [actionable, h]
  have hserver : (BotAPI.handler lastLoginTime currentTime login (.ok notifications)).mentions.map
      (fun r => r.mention)
      = (notifications.map (fun p => p.1)).filter
          (fun n => decide (n.reason = "mention" ∧ n.isRead = false)) := by
    rw [handler_listing_ok _ _ _ _ hlogin]
    simp only [map_mention_runMention, hfilter]
  have hjob : (Bot.checkMentions lastLoginTime (.ok notifications) reloginTime relogin).mentions.map
      (fun r => r.mention)
      = (notifications.map (fun p => p.1)).filter
          (fun n => decide (n.reason = "mention" ∧ n.isRead = false)) := by
    cases notifications with
    | nil => simp [Bot.checkMentions]
    | cons p ps =>
      simp only [Bot.checkMentions, List.length_cons, Nat.add_one_ne_zero, if_false,
        map_mention_runMention, hfilter]
  refine ⟨hserver, hjob, ?_, ?_, ?_⟩
  · rw [hserver]; exact List.filter_sublist _
  · intro n
    rw [hserver, List.mem_filter]
    simp
  · intro hnil
    subst hnil
    rw [handler_listing_ok _ _ _ _ hlogin]
    simp [Bot.checkMentions]

/-- Witness for C3: of five notifications, the two unread mentions are
    selected, in order. -/
theorem mentions_selected_witness :
    (BotAPI.handler none 1000 (.ok ()) (.ok mixedBatch)).mentions.map (fun r => r.mention)
      = [mentionA, mentionB] :=
  (mentions_selected none 1000 2000 (.ok ()) (.ok ()) mixedBatch (Or.inr rfl)).1.trans
    (by decide)

theorem processMention_generation_fails (createHashtagFacets : List String → RichText)
    (mention : Notification) (rootPost : Option RootPost) (o : Outcomes)
    (hgen : (∃ e, o.memeApi = .error e) ∨ ∃ data, o.memeApi = .ok data ∧ data.hashtags = none) :
    (processMention createHashtagFacets mention rootPost o).result = none ∧
    ∀ c ∈ (processMention createHashtagFacets mention rootPost o).calls, ∃ t, c = .memeApi t := by
  cases rootPost with
  | none => simp [processMention]
  | some post =>
    rcases hgen with ⟨e, he⟩ | ⟨data, hd, hh⟩
    · simp [processMention, he]
    · simp [processMention, hd, hh]

theorem getRootPost_calls (uri : Option String) (o : Outcomes) :
    (getRootPost uri o).2 = [.getPostThread uri 0] := by
  unfold getRootPost
  split <;> rfl

/-- C6: when login and listing succeed, the server handler answers
    `success: true` with `processedMentions` the number of mentions for which
    `processMention` returned `true`, whatever the per-mention calls answer; a
    mention whose content generation fails gets `null`, no post and no
    acknowledgment; and what is done for each mention of a batch is what is
    done for it alone, so that such a mention changes nothing for the others. -/
theorem handler_isolates_failures (lastLoginTime : Option Int) (currentTime : Int)
    (login : Except JSError Unit) (before after : List (Notification × Outcomes))
    (mention : Notification) (o : Outcomes)
    (hlogin : sessionFresh lastLoginTime currentTime = true ∨ login = .ok ())
    (hmention : mention.reason = "mention" ∧ mention.isRead = false)
    (hgen : (∃ e, o.memeApi = .error e) ∨ ∃ data, o.memeApi = .ok data ∧ data.hashtags = none) :
    (∀ batch,
      (BotAPI.handler lastLoginTime currentTime login (.ok batch)).response
        = some (.json200 true
            (((batch.filter (fun p => actionable p.1)).map
                (fun p => (BotAPI.processMention p.1 (getRootPost p.1.parentUri p.2).1 p.2).result)).count
              (some true))) ∧
      (BotAPI.handler lastLoginTime currentTime login (.ok batch)).mentions.map
          (fun r => r.result)
        = (batch.filter (fun p => actionable p.1)).map
            (fun p => (BotAPI.processMention p.1 (getRootPost p.1.parentUri p.2).1 p.2).result)) ∧
    (∃ calls,
      (BotAPI.handler lastLoginTime currentTime login (.ok [(mention, o)])).mentions
        = [{ mention := mention, result := none, calls := calls }] ∧
      (∀ p, Call.post p ∉ calls) ∧ Call.updateSeen ∉ calls) ∧
    (BotAPI.handler lastLoginTime currentTime login
        (.ok (before ++ (mention, o) :: after))).mentions
      = (BotAPI.handler lastLoginTime currentTime login (.ok before)).mentions
        ++ (BotAPI.handler lastLoginTime currentTime login (.ok [(mention, o)])).mentions
        ++ (BotAPI.handler lastLoginTime currentTime login (.ok after)).mentions := by
  have hact : actionable mention = true := (actionable_iff mention).2 hmention
  refine ⟨?_, ?_, ?_⟩
  · intro batch
    rw [handler_listing_ok _ _ _ _ hlogin]
    refine ⟨?_, ?_⟩
    · simp only [Option.some.injEq, Response.json200.injEq, true_and]
      generalize batch.filter (fun p => actionable p.1) = l
      induction l with
      | nil => rfl
      | cons p ps ih =>
        simp only [List.map_cons, List.filter_cons, List.count_cons]
        by_cases hp : (BotAPI.processMention p.1 (getRootPost p.1.parentUri p.2).1 p.2).result
            = some true
        · simp [runMention, hp, ih]
        · simp [runMention, hp, ih]
    · simp [runMention, Function.comp_def]
  · obtain ⟨hres, hcalls⟩ := processMention_generation_fails BotAPI.createHashtagFacets
      mention (getRootPost mention.parentUri o).1 o hgen
    rw [handler_listing_ok _ _ _ _ hlogin]
    refine ⟨(getRootPost mention.parentUri o).2
        ++ (BotAPI.processMention mention (getRootPost mention.parentUri o).1 o).calls, ?_, ?_, ?_⟩
    · simp only [List.filter_cons, hact, if_true, List.filter_nil, List.map_cons, List.map_nil,
        runMention]
      simp only [BotAPI.processMention, hres]
    · intro p hp
      rw [getRootPost_calls, List.mem_append] at hp
      rcases hp with hp | hp
      · simp at hp
      · obtain ⟨t, ht⟩ := hcalls _ hp
        cases ht
    · intro hp
      rw [getRootPost_calls, List.mem_append] at hp
      rcases hp with hp | hp
      · simp at hp
      · obtain ⟨t, ht⟩ := hcalls _ hp
        cases ht
  · simp only [handler_listing_ok _ _ _ _ hlogin, List.filter_append, List.filter_cons,
      List.filter_nil, List.map_append, List.append_assoc]
    simp [hact]

/-- Witness for C6: a mention whose content generation fails, between two
    mentions that succeed. -/
theorem handler_isolates_failures_witness :
    (BotAPI.handler none 1000 (.ok ())
        (.ok ([(mentionA, allSucceed (some rootA) ["#x"] 5000)]
          ++ (mentionB, generationFails) :: [(mentionA, allSucceed (some rootA) ["#y"] 5000)]))).mentions
      = (BotAPI.handler none 1000 (.ok ())
          (.ok [(mentionA, allSucceed (some rootA) ["#x"] 5000)])).mentions
        ++ (BotAPI.handler none 1000 (.ok ()) (.ok [(mentionB, generationFails)])).mentions
        ++ (BotAPI.handler none 1000 (.ok ())
          (.ok [(mentionA, allSucceed (some rootA) ["#y"] 5000)])).mentions :=
  (handler_isolates_failures none 1000 (.ok ())
    [(mentionA, allSucceed (some rootA) ["#x"] 5000)]
    [(mentionA, allSucceed (some rootA) ["#y"] 5000)]
    mentionB generationFails (Or.inr rfl) (by decide) (Or.inl ⟨_, rfl⟩)).2.2

theorem image_none_of_upload_fails (imageUrl : String) (o : Outcomes) (e : JSError)
    (hup : o.uploadBlob = .error e) : (processAndUploadImage imageUrl o).1 = none := by
  unfold processAndUploadImage
  split
  · rfl
  · split
    · rfl
    · split
      · rfl
      · simp [hup]

theorem processMention_call_fails (createHashtagFacets : List String → RichText)
    (mention : Notification) (rootPost : Option RootPost) (o : Outcomes)
    (hfail : (∃ e, o.uploadBlob = .error e) ∨ (∃ e, o.post = .error e) ∨
      (∃ e, o.updateSeen = .error e)) :
    (processMention createHashtagFacets mention rootPost o).result = none := by
  cases rootPost with
  | none => simp [processMention]
  | some post =>
    cases hm : o.memeApi with
    | error e => simp [processMention, hm]
    | ok data =>
      cases hh : data.hashtags with
      | none => simp [processMention, hm, hh]
      | some hashtags =>
        cases hi : (processAndUploadImage data.url o).1 with
        | none => simp [processMention, hm, hh, hi]
        | some imageEmbed =>
          cases hp : o.post with
          | error e => simp [processMention, hm, hh, hi, hp]
          | ok u =>
            cases hs : o.updateSeen with
            | error e => simp [processMention, hm, hh, hi, hp, hs]
            | ok v =>
              rcases hfail with ⟨e, he⟩ | ⟨e, he⟩ | ⟨e, he⟩
              · rw [image_none_of_upload_fails data.url o e he] at hi
                cases hi
              · rw [he] at hp; cases hp
              · rw [he] at hs; cases hs

/-- C8, as stated, fails, in two ways.  A batch whose only mention has its
    post submission rejected with an error whose message contains "auth" ends
    with `lastLoginTime` still set and answers `success: true`, not an
    authentication error.  And a batch whose notification listing is rejected
    with "Authentication Required", which does not contain "auth", ends with
    `lastLoginTime` still set and answers 500, not 401. -/
theorem handler_keeps_session_on_auth_error :
    (isAuthError authError = true ∧
      postRejected.post = .error authError ∧
      (∃ payload, postRejectedRun.mentions.map (fun r => r.calls)
        = [[.getPostThread mentionA.parentUri 0, .memeApi "hello",
            .download "https://img.example/meme.jpg",
            .uploadBlob { length := 5000 } "image/jpeg", .post payload]]) ∧
      postRejectedRun.lastLoginTime = some 1000 ∧
      postRejectedRun.lastLoginTime ≠ none ∧
      postRejectedRun.response = some (.json200 true 0) ∧
      postRejectedRun.response ≠ some (.json401 "Authentication failed")) ∧
    (isAuthError authRequired = false ∧
      listingRejectedRun.lastLoginTime = some 1000 ∧
      listingRejectedRun.lastLoginTime ≠ none ∧
      listingRejectedRun.response = some (.json500 (some "Authentication Required")) ∧
      listingRejectedRun.response ≠ some (.json401 "Authentication failed")) := by
  refine ⟨⟨by decide, rfl, ⟨_, rfl⟩, by decide, by decide, by decide, by decide⟩,
    ⟨by decide, by decide, by decide, by decide, by decide⟩⟩

/-- C8, amended: when the authentication call or the notification listing
    fails with an error whose message contains "auth", the handler resets
    `lastLoginTime` to `null`, processes no mention and answers 401
    "Authentication failed", and the next `loginToBluesky` authenticates
    again.  When both succeed, an error of a per-mention call never reaches
    the handler, whatever its class: a thread-fetch error makes `getRootPost`
    return `null`; an image-upload, post-submission or seen-update error makes
    `processMention` return `null` for that mention; the session is kept and
    the handler answers `success: true` with the number of mentions for which
    `processMention` returned `true`. -/
theorem handler_auth_error (lastLoginTime : Option Int) (currentTime : Int)
    (login : Except JSError Unit)
    (listing : Except JSError (List (Notification × Outcomes))) :
    (∀ e, isAuthError e = true →
      ((sessionFresh lastLoginTime currentTime = false ∧ login = .error e) ∨
       ((sessionFresh lastLoginTime currentTime = true ∨ login = .ok ()) ∧
          listing = .error e)) →
      (BotAPI.handler lastLoginTime currentTime login listing).lastLoginTime = none ∧
      (BotAPI.handler lastLoginTime currentTime login listing).response
        = some (.json401 "Authentication failed") ∧
      (BotAPI.handler lastLoginTime currentTime login listing).mentions = [] ∧
      ∀ nextTime,
        (BotAPI.loginToBluesky
          (BotAPI.handler lastLoginTime currentTime login listing).lastLoginTime
          nextTime (.ok ())).calls = [.login]) ∧
    (∀ notifications,
      (sessionFresh lastLoginTime currentTime = true ∨ login = .ok ()) →
      listing = .ok notifications →
      (BotAPI.handler lastLoginTime currentTime login listing).lastLoginTime
        = (if sessionFresh lastLoginTime currentTime then lastLoginTime else some currentTime) ∧
      (BotAPI.handler lastLoginTime currentTime login listing).lastLoginTime ≠ none ∧
      (BotAPI.handler lastLoginTime currentTime login listing).response
        = some (.json200 true
            (((notifications.filter (fun p => actionable p.1)).map
                (fun p => (BotAPI.processMention p.1 (getRootPost p.1.parentUri p.2).1 p.2).result)).count
              (some true))) ∧
      (∀ p ∈ notifications, actionable p.1 = true →
        ((∃ e, p.2.getPostThread = .error e) → (getRootPost p.1.parentUri p.2).1 = none) ∧
        (((∃ e, p.2.uploadBlob = .error e) ∨ (∃ e, p.2.post = .error e) ∨
            (∃ e, p.2.updateSeen = .error e)) →
          (BotAPI.processMention p.1 (getRootPost p.1.parentUri p.2).1 p.2).result = none ∧
          ∃ calls, { mention := p.1, result := none, calls := calls }
            ∈ (BotAPI.handler lastLoginTime currentTime login listing).mentions))) := by
  refine ⟨?_, ?_⟩
  · intro e he hfail
    have hrun : BotAPI.handler lastLoginTime currentTime login listing
        = { response := some (.json401 "Authentication failed"), completion := .returned
            lastLoginTime := none
            calls := (BotAPI.handler lastLoginTime currentTime login listing).calls
            mentions := [] } := by
      rcases hfail with ⟨hf, hl⟩ | ⟨hl, hlist⟩
      · simp [BotAPI.handler, BotAPI.loginToBluesky, hf, hl, BotAPI.handlerCatch, he]
      · obtain ⟨h1, _⟩ := loginToBluesky_returns lastLoginTime currentTime login hl
        simp [BotAPI.handler, h1, hlist, BotAPI.handlerCatch, he]
    rw [hrun]
    refine ⟨rfl, rfl, rfl, ?_⟩
    intro nextTime
    simp [BotAPI.loginToBluesky, sessionFresh]
  · intro notifications hl hlist
    subst hlist
    rw [handler_listing_ok _ _ _ _ hl]
    refine ⟨rfl, ?_, ?_, ?_⟩
    · by_cases hf : sessionFresh lastLoginTime currentTime = true
      · simp only [hf, if_true]
        intro hnone
        simp [hnone, sessionFresh] at hf
      · simp [hf]
    · simp only [Option.some.injEq, Response.json200.injEq, true_and]
      generalize notifications.filter (fun p => actionable p.1) = l
      induction l with
      | nil => rfl
      | cons p ps ih =>
        simp only [List.map_cons, List.filter_cons, List.count_cons]
        by_cases hp : (BotAPI.processMention p.1 (getRootPost p.1.parentUri p.2).1 p.2).result
            = some true
        · simp [runMention, hp, ih]
        · simp [runMention, hp, ih]
    · intro p hp hact
      refine ⟨?_, ?_⟩
      · rintro ⟨e, he⟩
        simp [getRootPost, he]
      · intro hfail
        have hres : (BotAPI.processMention p.1 (getRootPost p.1.parentUri p.2).1 p.2).result
            = none :=
          processMention_call_fails BotAPI.createHashtagFacets p.1
            (getRootPost p.1.parentUri p.2).1 p.2 hfail
        refine ⟨hres, (getRootPost p.1.parentUri p.2).2
          ++ (BotAPI.processMention p.1 (getRootPost p.1.parentUri p.2).1 p.2).calls, ?_⟩
        simp only [List.mem_map, List.mem_filter]
        refine ⟨p, ⟨hp, hact⟩, ?_⟩
        simp only [runMention]
        rw [hres]

/-- Witness for C8, amended: a listing that fails with `authError` resets the
    session and answers 401; a post submission that fails with `authError`
    gives `null` for its mention. -/
theorem handler_auth_error_witness :
    isAuthError authError = true ∧
    (BotAPI.handler (some 500) 1000 (.ok ()) (.error authError)).lastLoginTime = none ∧
    (BotAPI.handler (some 500) 1000 (.ok ()) (.error authError)).response
      = some (.json401 "Authentication failed") ∧
    (BotAPI.processMention mentionA (getRootPost mentionA.parentUri postRejected).1
      postRejected).result = none :=
  ⟨by decide,
   ((handler_auth_error (some 500) 1000 (.ok ()) (.error authError)).1 authError (by decide)
      (Or.inr ⟨Or.inr rfl, rfl⟩)).1,
   ((handler_auth_error (some 500) 1000 (.ok ()) (.error authError)).1 authError (by decide)
      (Or.inr ⟨Or.inr rfl, rfl⟩)).2.1,
   (((handler_auth_error none 1000 (.ok ()) (.ok [(mentionA, postRejected)])).2
      [(mentionA, postRejected)] (Or.inr rfl) rfl).2.2.2 (mentionA, postRejected)
      (by simp) (by decide)).2 (Or.inr (Or.inl ⟨authError, rfl⟩)) |>.1⟩

end MemeCasso
